import Mathlib

/-!
Verification development for the `ssquant-ai` AI-strategy repair loop.

We give a shallow embedding, in Lean, of the pure algorithmic core of the
repository:

* `src/ai_cmd/code_parser.py` — `CodeParser.extract_code` and
  `CodeParser._validate_code` (fenced-block regex extraction, line-scan
  fallback and the code-validity heuristic);
* `src/ai_cmd/gpt_client.py` — the conversation store
  (`count_tokens`, `count_messages_tokens`, `trim_conversation_history`,
  `add_message`), with the external tokenizer abstracted as a possibly
  failing function `enc : String → Option Nat`;
* `src/ai_cmd/workflow_manager.py` — the bounded repair loop of
  `_run_backtest_and_report`, with strategy execution and the remote
  text-generation service abstracted as oracles indexed by attempt number;
* `src/ai_cmd/integration_module.py` — the recursive `run_backtest`
  self-invocation (modelled with explicit fuel, since the source has no
  iteration counter) and the pure error-context extraction performed at
  the top of `fix_strategy`;
* `src/ai_cmd/config.py` — the constant `MAX_ITERATIONS`.

Strings are modelled at the character-list level (`List Char`) so that
every Python string primitive used by the source (`split('\n')`,
`strip()`, `lstrip()`, `startswith`, substring membership, `len`,
slicing) has a direct, executable Lean counterpart.
-/

set_option maxRecDepth 4000

namespace SSQuant

/-! ## Character-list string primitives (Python string operations) -/

/-- Convert a Lean string literal to a character list. -/
def strL (s : String) : List Char := s.toList

/-- `listPre pre l` : does `l` start with `pre`?  (Python `str.startswith`). -/
def listPre : List Char → List Char → Bool
  | [], _ => true
  | _ :: _, [] => false
  | a :: as, b :: bs => a == b && listPre as bs

/-- `listSub sub l` : does `sub` occur as a contiguous substring of `l`?
(Python `sub in s`). -/
def listSub (sub : List Char) : List Char → Bool
  | [] => sub.isEmpty
  | c :: t => listPre sub (c :: t) || listSub sub t

/-- Python whitespace characters (the characters stripped by `str.strip()`
and matched by the regex class `\s`, restricted to ASCII). -/
def isWsChar (c : Char) : Bool :=
  c == ' ' || c == '\t' || c == '\n' || c == '\r' ||
  c == Char.ofNat 11 || c == Char.ofNat 12

/-- Python `str.lstrip()`. -/
def lstripL (l : List Char) : List Char := l.dropWhile isWsChar

/-- Python `str.rstrip()`. -/
def rstripL (l : List Char) : List Char := (l.reverse.dropWhile isWsChar).reverse

/-- Python `str.strip()`. -/
def stripL (l : List Char) : List Char := rstripL (lstripL l)

/-- Python `text.split('\n')` (keeps empty pieces; `splitLinesL [] = [[]]`,
matching `''.split('\n') == ['']`). -/
def splitLinesL : List Char → List (List Char)
  | [] => [[]]
  | c :: cs =>
    if c == '\n' then [] :: splitLinesL cs
    else
      match splitLinesL cs with
      | [] => [[c]]
      | l :: ls => (c :: l) :: ls

/-- Python `'\n'.join(lines)`. -/
def joinLinesL : List (List Char) → List Char
  | [] => []
  | [l] => l
  | l :: l' :: ls => l ++ '\n' :: joinLinesL (l' :: ls)

/-- Python slice `lines[a:b]` for natural bounds. -/
def sliceL (l : List (List Char)) (a b : Nat) : List (List Char) :=
  (l.drop a).take (b - a)

/-- Does `l` start with one of the given prefixes?  (Python
`str.startswith(tuple)`). -/
def startsAny (ps : List (List Char)) (l : List Char) : Bool :=
  ps.any (fun p => listPre p l)

/-- Keep the first occurrence of each element (used to model Python's
`set` of indentation levels; only its cardinality is ever consulted). -/
def dedupNat : List Nat → List Nat
  | [] => []
  | n :: ns => if (dedupNat ns).contains n then dedupNat ns else n :: dedupNat ns

/-! ## `code_parser.py` — `CodeParser._validate_code` -/

/-- ASCII apostrophe, built by code point to keep source text plain. -/
def sq : Char := Char.ofNat 39

/-- Opening curly brace character. -/
def obr : Char := Char.ofNat 123

/-- Closing curly brace character. -/
def cbr : Char := Char.ofNat 125

/-- The double-quoted program-entry marker
`if __name__ == "__main__":` (code_parser.py line 134). -/
def mainMarkerDq : List Char := strL ("if __name__ == \"__main__\":")

/-- The single-quoted program-entry marker (code_parser.py line 134). -/
def mainMarkerSq : List Char :=
  strL ("if __name__ == ") ++ [sq] ++ strL ("__main__") ++ [sq, ':']

/-- The bracket-balance scan of `_validate_code` (code_parser.py lines
124-131): push on every opening bracket, fail when a closing bracket does
not match the most recent opening one.  Exactly as in the source, a
leftover non-empty stack at the end of the scan is NOT a failure. -/
def bracketScan : List Char → List Char → Bool
  | [], _stack => true
  | c :: cs, stack =>
    if c == '(' || c == '[' || c == obr then bracketScan cs (c :: stack)
    else if c == ')' || c == ']' || c == cbr then
      match stack with
      | [] => false
      | top :: rest =>
        let want : Char := if top == '(' then ')' else if top == '[' then ']' else cbr
        if want == c then bracketScan cs rest else false
    else bracketScan cs stack

/-- Indentation levels of the non-blank lines, as a deduplicated list
(`_validate_code` lines 112-117: `indent = len(line) - len(line.lstrip())`
collected into a `set`, skipping lines with empty `strip()`). -/
def indentLevels (lines : List (List Char)) : List Nat :=
  dedupNat ((lines.filter (fun l => !(stripL l).isEmpty)).map
    (fun l => l.length - (lstripL l).length))

/-- `CodeParser._validate_code` (code_parser.py lines 96-149), on
character lists. -/
def validate_code_l (code : List Char) : Bool :=
  if !(listSub (strL ("def ")) code || listSub (strL ("class ")) code ||
       listSub (strL ("import ")) code || listSub (strL ("from ")) code) then
    false
  else if (indentLevels (splitLinesL code)).length < 1 then
    false
  else if !bracketScan code [] then
    false
  else if listSub mainMarkerDq code || listSub mainMarkerSq code then
    true
  else if listSub (strL ("def strategy_function")) code ||
          listSub (strL ("def initialize")) code then
    true
  else if listSub (strL ("class")) code && listSub (strL ("Strategy")) code then
    true
  else if 200 < code.length then
    true
  else
    false

/-- `CodeParser._validate_code` on Lean strings. -/
def validate_code (code : String) : Bool := validate_code_l code.toList

/-! ## `code_parser.py` — fenced-block extraction (`re.findall` models)

`extract_code` tries, in order, the patterns
`r'```python\s*(.*?)```'`, `r'```py\s*(.*?)```'`, `r'```\s*(.*?)```'`
and `r'`{3,}(.*?)`{3,}'` with `re.DOTALL` (lines 21-34).  We model
`re.findall` for each shape directly: scan left to right; at a position
where the opening delimiter matches, skip the (greedy) `\s*` run, then
take the lazy capture up to the earliest position where the closing
delimiter matches, and resume scanning after the closing delimiter;
otherwise advance one character.  `fuel` is initialised to the text
length; every step consumes at least one character, so the scan is
never cut short. -/

/-- Index of the first position of `l` at which `tag` is a prefix. -/
def findTagIdx (tag : List Char) : List Char → Option Nat
  | [] => if tag.isEmpty then some 0 else none
  | c :: t =>
    if listPre tag (c :: t) then some 0
    else (findTagIdx tag t).map (· + 1)

/-- `re.findall` for the patterns `OPEN ++ \s* ++ (.*?) ++ three
backticks` (the first three fenced-block patterns of `extract_code`). -/
def findTagBlocksAux (openTag : List Char) : Nat → List Char → List (List Char)
  | 0, _ => []
  | _ + 1, [] => []
  | fuel + 1, c :: t =>
    if listPre openTag (c :: t) then
      let rest := (c :: t).drop openTag.length
      let wsn := (rest.takeWhile isWsChar).length
      let body := rest.drop wsn
      match findTagIdx (strL ("```")) body with
      | some k => body.take k :: findTagBlocksAux openTag fuel (body.drop (k + 3))
      | none => findTagBlocksAux openTag fuel t
    else
      findTagBlocksAux openTag fuel t

/-- `re.findall` for one of the first three fenced-block patterns. -/
def findTagBlocks (openTag : List Char) (text : List Char) : List (List Char) :=
  findTagBlocksAux openTag text.length text

/-- Length of the run of backticks at the head of the list. -/
def tickRun (l : List Char) : Nat := (l.takeWhile (· == '`')).length

/-- First index of `l` at which a run of at least three backticks starts,
together with the length of that run (the greedy closing ```` `{3,} ````
consumes the whole run). -/
def findRun3 : List Char → Option (Nat × Nat)
  | [] => none
  | c :: t =>
    if listPre (strL ("```")) (c :: t) then some (0, tickRun (c :: t))
    else (findRun3 t).map (fun p => (p.1 + 1, p.2))

/-- Backtracking over the opener length of ```` `{3,} ````: try the
longest opener first, retreating one backtick at a time down to three. -/
def tryOpen4 (s : List Char) : Nat → Option (List Char × List Char)
  | 0 => none
  | 1 => none
  | 2 => none
  | o + 3 =>
    let body := s.drop (o + 3)
    match findRun3 body with
    | some kr => some (body.take kr.1, body.drop (kr.1 + kr.2))
    | none => tryOpen4 s (o + 2)

/-- `re.findall` for the fourth pattern ```` r'`{3,}(.*?)`{3,}' ````. -/
def findBlocks4Aux : Nat → List Char → List (List Char)
  | 0, _ => []
  | _ + 1, [] => []
  | fuel + 1, c :: t =>
    let n := tickRun (c :: t)
    if 3 ≤ n then
      match tryOpen4 (c :: t) n with
      | some capRest => capRest.1 :: findBlocks4Aux fuel capRest.2
      | none => findBlocks4Aux fuel t
    else
      findBlocks4Aux fuel t

/-- `re.findall` for the fourth fenced-block pattern. -/
def findBlocks4 (text : List Char) : List (List Char) :=
  findBlocks4Aux text.length text

/-- Python `max(blocks, key=len)`: the first block of strictly maximal
length (`max` keeps the incumbent on ties). -/
def maxByLenL : List (List Char) → List Char
  | [] => []
  | b :: bs => bs.foldl (fun best y => if best.length < y.length then y else best) b

/-- One iteration of the fenced-block loop of `extract_code` (lines
28-34): if the pattern found any block, take the longest, strip it and
accept it if `_validate_code` passes; otherwise fall through. -/
def tryFenced (blocks : List (List Char)) : Option (List Char) :=
  match blocks with
  | [] => none
  | b :: bs =>
    let extracted := stripL (maxByLenL (b :: bs))
    if validate_code_l extracted then some extracted else none

/-! ## `code_parser.py` — non-fenced line-scan fallback (lines 36-94) -/

/-- Prefixes that open a code block in the line scan
(code_parser.py line 46). -/
def blockStarters : List (List Char) :=
  [strL ("import "), strL ("from "), strL ("class "), strL ("def "),
   strL ("#"), strL ("global ")]

/-- The triple-single-quote string, built by code point. -/
def tripleSq : List Char := [sq, sq, sq]

/-- Prefixes whose presence keeps a line inside the current block
(code_parser.py line 57). -/
def contPrefixes : List (List Char) :=
  [strL ("import "), strL ("from "), strL ("class "), strL ("def "),
   strL ("#"), strL ("@"), strL ("if "), strL ("for "), strL ("while "),
   strL ("try:"), strL ("else:"), strL ("elif "), strL ("except:"),
   strL ("finally:"), strL ("with "), strL ("async "), strL ("await "),
   strL ("return "), strL ("yield "), strL ("raise "), strL ("assert "),
   strL ("global "), strL ("nonlocal "), strL ("pass"), strL ("break"),
   strL ("continue"), strL (")"), strL ("]"), [cbr], strL ("\"\"\""),
   tripleSq]

/-- State of the line scan: (in_block, current_block, code_blocks). -/
structure ScanState where
  inBlock : Bool
  current : List (List Char)
  blocks : List (List Char)

/-- One iteration of the `for line in lines` loop of `extract_code`
(lines 42-68), including the double append of blank lines performed by
the final `if in_block and not stripped_line` statement. -/
def scanLine (st : ScanState) (line : List Char) : ScanState :=
  let stripped := stripL line
  let st1 : ScanState :=
    if !st.inBlock &&
       (startsAny blockStarters stripped || startsAny [[' '], ['\t']] line) then
      { st with inBlock := true, current := [] }
    else st
  let st2 : ScanState :=
    if st1.inBlock then
      if !stripped.isEmpty && !startsAny [[' '], ['\t']] line &&
         !startsAny contPrefixes stripped then
        { inBlock := false, current := [],
          blocks :=
            if !st1.current.isEmpty then st1.blocks ++ [joinLinesL st1.current]
            else st1.blocks }
      else
        { st1 with current := st1.current ++ [line] }
    else st1
  if st2.inBlock && stripped.isEmpty then
    { st2 with current := st2.current ++ [line] }
  else st2

/-- The candidate blocks produced by the line scan (lines 37-72):
fold over the lines, then flush the final block. -/
def scanBlocks (text : List Char) : List (List Char) :=
  let st := (splitLinesL text).foldl scanLine ⟨false, [], []⟩
  if !st.current.isEmpty then st.blocks ++ [joinLinesL st.current] else st.blocks

/-- The ranking applied to validated line-scan blocks (lines 74-94):
keep blocks whose stripped length exceeds 50 and which validate; prefer
blocks with a program-entry marker, then blocks defining
`strategy_function`/`initialize`, then the longest. -/
def rankBlocks (blocks : List (List Char)) : Option (List Char) :=
  let valid := blocks.filter
    (fun b => 50 < (stripL b).length && validate_code_l b)
  match valid with
  | [] => none
  | v :: vs =>
    let mains := (v :: vs).filter
      (fun b => listSub mainMarkerDq b || listSub mainMarkerSq b)
    if !mains.isEmpty then some (maxByLenL mains)
    else
      let strats := (v :: vs).filter
        (fun b => listSub (strL ("def strategy_function")) b ||
                  listSub (strL ("def initialize")) b)
      if !strats.isEmpty then some (maxByLenL strats)
      else some (maxByLenL (v :: vs))

/-- `CodeParser.extract_code` (code_parser.py lines 9-94) on character
lists: the four fenced patterns in order, then the line-scan fallback. -/
def extract_code_l (text : List Char) : Option (List Char) :=
  match tryFenced (findTagBlocks (strL ("```python")) text) with
  | some c => some c
  | none =>
    match tryFenced (findTagBlocks (strL ("```py")) text) with
    | some c => some c
    | none =>
      match tryFenced (findTagBlocks (strL ("```")) text) with
      | some c => some c
      | none =>
        match tryFenced (findBlocks4 text) with
        | some c => some c
        | none => rankBlocks (scanBlocks text)

/-- `CodeParser.extract_code` on Lean strings. -/
def extract_code (text : String) : Option String :=
  (extract_code_l text.toList).map (fun l => String.mk l)

/-! ## `gpt_client.py` — the conversation store

The external `tiktoken` tokenizer is abstracted as a possibly failing
function `enc : String → Option Nat`; `enc s = none` models the
`tokenizer.encode` call raising inside `count_tokens` (gpt_client.py
lines 42-48), in which case the source falls back to `len(text) // 4`. -/

/-- Message roles. -/
inductive Role where
  | system
  | user
  | assistant
deriving DecidableEq, Repr

/-- One conversation message (`{"role": ..., "content": ...}`). -/
structure Msg where
  role : Role
  content : String
deriving DecidableEq, Repr

/-- `self.max_tokens = 60000` (gpt_client.py line 39). -/
def maxTokens : Nat := 60000

/-- `self.max_history_messages = 10` (gpt_client.py line 40). -/
def maxHistoryMessages : Nat := 10

/-- `GPTClient.count_tokens` (lines 42-48): the tokenizer count when the
tokenizer succeeds, `len(text) // 4` when it raises. -/
def count_tokens (enc : String → Option Nat) (s : String) : Nat :=
  match enc s with
  | some n => n
  | none => s.length / 4

/-- `GPTClient.count_messages_tokens` (lines 50-56): content tokens plus
a 10-token overhead per message. -/
def count_messages_tokens (enc : String → Option Nat) (msgs : List Msg) : Nat :=
  (msgs.map (fun m => count_tokens enc m.content + 10)).sum

/-- The pairing loop of `trim_conversation_history` (lines 71-82):
group the non-system messages into `[user, assistant]` pairs, keeping
unpaired messages as singletons. -/
def pairUp : List Msg → List (List Msg)
  | [] => []
  | [m] => [[m]]
  | m1 :: m2 :: rest =>
    if m1.role = .user ∧ m2.role = .assistant then
      [m1, m2] :: pairUp rest
    else
      [m1] :: pairUp (m2 :: rest)

/-- `pair_tokens` (line 90): the content-token total of one pair. -/
def pairTokens (tok : String → Nat) (p : List Msg) : Nat :=
  (p.map (fun m => tok m.content)).sum

/-- The keep loop of `trim_conversation_history` (lines 88-94): walk the
pair list (already reversed, newest pair first), appending each pair
while the running content-token total stays within `max_tokens`, and
stop at the first pair that would exceed it (`break`). -/
def keepLoop (tok : String → Nat) : List (List Msg) → Nat → List Msg
  | [], _ => []
  | p :: ps, cur =>
    if maxTokens < cur + pairTokens tok p then []
    else p ++ keepLoop tok ps (cur + pairTokens tok p)

/-- The body of `trim_conversation_history` (lines 58-96), factored over
the token-counting function actually used (`self.count_tokens`):
if the overall estimate is within budget, do nothing; otherwise rebuild
from the system message, walking the last `max_history_messages` pairs
newest-first. -/
def trimWithTok (tok : String → Nat) (msgs : List Msg) : List Msg :=
  if (msgs.map (fun m => tok m.content + 10)).sum ≤ maxTokens then msgs
  else
    match msgs with
    | [] => []
    | sys :: rest =>
      sys :: keepLoop tok
        (((pairUp rest).drop ((pairUp rest).length - maxHistoryMessages)).reverse)
        (tok sys.content)

/-- `GPTClient.trim_conversation_history` (lines 58-96). -/
def trim_conversation_history (enc : String → Option Nat) (msgs : List Msg) :
    List Msg :=
  trimWithTok (count_tokens enc) msgs

/-- `GPTClient.add_message` (lines 98-108): append, then trim. -/
def add_message (enc : String → Option Nat) (role : Role) (content : String)
    (msgs : List Msg) : List Msg :=
  trim_conversation_history enc (msgs ++ [⟨role, content⟩])

/-- The freshly initialised conversation (line 23):
`[{"role": "system", "content": system_prompt}]`. -/
def initMessages (sysPrompt : String) : List Msg := [⟨.system, sysPrompt⟩]

/-- A sequence of `add_message` calls applied to a fresh client. -/
def applyMessages (enc : String → Option Nat) (sysPrompt : String)
    (ops : List (Role × String)) : List Msg :=
  ops.foldl (fun ms rc => add_message enc rc.1 rc.2 ms) (initMessages sysPrompt)

/-- Sum of the per-message content-token estimates (no overhead). -/
def contentTokens (tok : String → Nat) (msgs : List Msg) : Nat :=
  (msgs.map (fun m => tok m.content)).sum

/-! ## `config.py` / `workflow_manager.py` — the bounded repair loop

`WorkflowManager._run_backtest_and_report` (workflow_manager.py lines
102-148).  Strategy execution (`backtest_engine.run_strategy_code`) and
the remote fix responses (`gpt_client.report_error`) are abstracted as
oracles indexed by, respectively, the number of runs so far and the
number of repair prompts sent so far; code extraction is a parameter so
the loop can be instantiated with the embedded `extract_code`.  The
`while iteration_count < MAX_ITERATIONS` loop is compiled to structural
recursion on `fuel = MAX_ITERATIONS - iteration_count`, which is exactly
the loop condition; success-path report formatting, stream callbacks and
the data-loading precondition are outside the loop and are not
modelled. -/

/-- `MAX_ITERATIONS = 5` (config.py line 28). -/
def MAX_ITERATIONS : Nat := 5

/-- Terminal outcomes of `_run_backtest_and_report`. -/
inductive Outcome where
  /-- line 116/119: the backtest succeeded. -/
  | succeeded
  /-- line 125: the iteration budget was reached after a failure. -/
  | exhausted
  /-- line 146: a fix response contained no extractable code. -/
  | unrepairable
  /-- line 148: the `while` condition was false on entry
  (only reachable when `MAX_ITERATIONS = 0`). -/
  | loopSkipped
deriving DecidableEq, Repr

/-- Result of the repair loop: terminal outcome, returned message, final
`iteration_count`, number of repair prompts sent (`report_error` calls)
and number of strategy executions (`run_strategy_code` calls). -/
structure LoopRes where
  outcome : Outcome
  message : String
  iters : Nat
  fixes : Nat
  runs : Nat
deriving DecidableEq, Repr

/-- Prefix of the `EXHAUSTED` return message (line 125). -/
def exhaustedMsg : String := "达到最大尝试次数。最后一次错误：\n"

/-- First part of the `UNREPAIRABLE` return message (line 146). -/
def unrepairableMsg1 : String := "GPT无法提供有效的代码修复。错误信息：\n"

/-- Second part of the `UNREPAIRABLE` return message (line 146). -/
def unrepairableMsg2 : String := "\n\nGPT响应：\n"

/-- Message returned when the loop body never runs (line 148). -/
def loopSkippedMsg : String := "达到最大尝试次数，无法成功运行策略。"

/-- The `while` loop of `_run_backtest_and_report` (lines 102-148).
`exec k` is the `(success, message)` outcome of the `k`-th
`run_strategy_code` call, `resp k` the text of the `k`-th fix response,
`extract` the code extractor applied to it.  `fuel` equals
`maxIter - count` at every call, so `fuel = 0` is exactly the loop
condition `iteration_count < MAX_ITERATIONS` turning false. -/
def runLoopAux (exec : Nat → Bool × String) (resp : Nat → String)
    (extract : String → Option String) (maxIter : Nat) :
    Nat → Nat → Nat → Nat → LoopRes
  | 0, count, fixes, runs => ⟨.loopSkipped, loopSkippedMsg, count, fixes, runs⟩
  | fuel + 1, count, fixes, runs =>
    if (exec runs).1 then
      ⟨.succeeded, (exec runs).2, count, fixes, runs + 1⟩
    else if maxIter ≤ count + 1 then
      ⟨.exhausted, exhaustedMsg ++ (exec runs).2, count + 1, fixes, runs + 1⟩
    else
      match extract (resp fixes) with
      | some _ =>
        runLoopAux exec resp extract maxIter fuel (count + 1) (fixes + 1) (runs + 1)
      | none =>
        ⟨.unrepairable,
         unrepairableMsg1 ++ (exec runs).2 ++ unrepairableMsg2 ++ resp fixes,
         count + 1, fixes + 1, runs + 1⟩

/-- `WorkflowManager._run_backtest_and_report`: the loop entered with
`iteration_count = 0` (line 89 resets it). -/
def run_backtest_and_report (exec : Nat → Bool × String) (resp : Nat → String)
    (extract : String → Option String) : LoopRes :=
  runLoopAux exec resp extract MAX_ITERATIONS MAX_ITERATIONS 0 0 0

/-! ## `integration_module.py` — recursive `run_backtest`

`IntegrationManager.run_backtest` (integration_module.py lines 205-341)
re-invokes ITSELF after every successful fix (lines 282 and 318) with no
iteration counter.  We model one invocation chain with explicit fuel:
`exec k` is whether the `k`-th subprocess run exits with code 0, `fix k`
whether the `k`-th `fix_strategy` call succeeds with extractable code.
`none` means the chain did not reach a return value within `fuel`
invocations. -/

/-- Result of a `run_backtest` chain. -/
inductive BtResult where
  /-- the subprocess exited 0: `return True, ...`. -/
  | ok
  /-- the fix failed: `return False, ...`. -/
  | failed
deriving DecidableEq, Repr

/-- Fuel-indexed model of the recursive `run_backtest`. -/
def runBacktestFuel (exec fix : Nat → Bool) : Nat → Nat → Option BtResult
  | 0, _ => none
  | fuel + 1, k =>
    if exec k then some .ok
    else if fix k then runBacktestFuel exec fix fuel (k + 1)
    else some .failed

/-! ## `integration_module.py` — error-context extraction in `fix_strategy`

The pure prefix of `IntegrationManager.fix_strategy` (lines 510-556)
that distills `error_output` into `error_info`. -/

/-- Does a line contain one of the hard fault markers
(`"Error" in line or "Exception" in line or "Traceback" in line`,
line 516)? -/
def errorMarkerLine (l : List Char) : Bool :=
  listSub (strL ("Error")) l || listSub (strL ("Exception")) l ||
  listSub (strL ("Traceback")) l

/-- The soft data-failure keywords (lines 526-534). -/
def dataKeywords : List (List Char) :=
  [strL ("未获取到"), strL ("服务器内部错误"), strL ("API请求"),
   strL ("数据请求开始"), strL ("未能获取任何数据"), strL ("警告"),
   strL ("没有数据"), strL ("数据为空"),
   strL ("min() arg is an empty sequence"), strL ("empty DataFrame"),
   strL ("index out of bounds"), strL ("IndexError"), strL ("没有找到"),
   strL ("无法获取"), strL ("数据不可用"), strL ("缺少数据"),
   strL ("empty data"), strL ("zero-size array"), strL ("无效的日期范围"),
   strL ("期间没有交易数据"), strL ("无法下载")]

/-- Does a line contain one of the soft data-failure keywords
(line 539)? -/
def dataKeywordLine (l : List Char) : Bool :=
  dataKeywords.any (fun k => listSub k l)

/-- The soft-failure scan (lines 535-544): on every keyword hit at index
`i`, remember the window start `max(0, first_hit - 10)` and overwrite
the collected lines with `lines[start : min(len, i + 20)]`; the final
assignment wins. -/
def dataScanAux (all : List (List Char)) (n : Nat) :
    List (List Char) → Nat → Option Nat → List (List Char) → List (List Char)
  | [], _, _, acc => acc
  | l :: ls, i, st, acc =>
    if dataKeywordLine l then
      let s := st.getD (i - 10)
      dataScanAux all n ls (i + 1) (some s) (sliceL all s (min n (i + 20)))
    else
      dataScanAux all n ls (i + 1) st acc

/-- The soft-failure branch plus last-50-lines fallback of
`fix_strategy` (lines 523-556), reached when no hard marker matched. -/
def softOrTail (lines : List (List Char)) : List Char :=
  if !(dataScanAux lines lines.length lines 0 none []).isEmpty then
    joinLinesL (dataScanAux lines lines.length lines 0 none [])
  else
    joinLinesL (lines.drop (lines.length - 50))

/-- The error-context extraction of `fix_strategy` (lines 511-556):
first hard fault marker → the window `lines[i-50 : i+50]`; otherwise
the soft-failure window; otherwise the last 50 lines. -/
def extractErrorInfoL (out : List Char) : List Char :=
  match (splitLinesL out).findIdx? errorMarkerLine with
  | some i =>
    joinLinesL (sliceL (splitLinesL out) (i - 50) (min (splitLinesL out).length (i + 50)))
  | none => softOrTail (splitLinesL out)

/-- The error-context extraction on Lean strings. -/
def extractErrorInfo (out : String) : String :=
  String.mk (extractErrorInfoL out.toList)

/-! ## Spec-side definitions (for refinement comparison)

These definitions are NOT translations of the source; each follows the
words of the specification for the claim it serves and is compared
against the embedded source function. -/

/-- Modelled from the spec (claim C5): full bracket balance — every
closing bracket matches the most recent opening one AND no opening
bracket is left unmatched at the end. -/
def specBalancedAux : List Char → List Char → Bool
  | [], stack => stack.isEmpty
  | c :: cs, stack =>
    if c == '(' || c == '[' || c == obr then specBalancedAux cs (c :: stack)
    else if c == ')' || c == ']' || c == cbr then
      match stack with
      | [] => false
      | top :: rest =>
        let want : Char := if top == '(' then ')' else if top == '[' then ']' else cbr
        if want == c then specBalancedAux cs rest else false
    else specBalancedAux cs stack

/-- Modelled from the spec (claim C5): the validity check as the claim
states it — structural keyword, an indentation level, all bracket pairs
balanced (unmatched opening brackets rejected), and one of:
program-entry marker, strategy-definition marker, or length floor.
The `class`/`Strategy` acceptance path of the source is absent here,
exactly as it is absent from the claim. -/
def specValidCheck (code : String) : Bool :=
  let l := code.toList
  (listSub (strL ("def ")) l || listSub (strL ("class ")) l ||
   listSub (strL ("import ")) l || listSub (strL ("from ")) l) &&
  !(indentLevels (splitLinesL l)).isEmpty &&
  specBalancedAux l [] &&
  (listSub mainMarkerDq l || listSub mainMarkerSq l ||
   listSub (strL ("def strategy_function")) l ||
   listSub (strL ("def initialize")) l ||
   decide (200 < l.length))

/-- The amended validity condition (claim C5, corrected): same
conjunction, but with the source's actual bracket scan (unmatched
opening brackets tolerated) and the source's additional
`class`/`Strategy` acceptance path. -/
def amendedValidCheck (code : String) : Bool :=
  (listSub (strL ("def ")) code.toList || listSub (strL ("class ")) code.toList ||
   listSub (strL ("import ")) code.toList || listSub (strL ("from ")) code.toList) &&
  !decide ((indentLevels (splitLinesL code.toList)).length < 1) &&
  bracketScan code.toList [] &&
  ((listSub mainMarkerDq code.toList || listSub mainMarkerSq code.toList) ||
   (listSub (strL ("def strategy_function")) code.toList ||
    listSub (strL ("def initialize")) code.toList) ||
   (listSub (strL ("class")) code.toList && listSub (strL ("Strategy")) code.toList) ||
   decide (200 < code.toList.length))

/-! ## Concrete inputs used by counterexamples and witnesses -/

/-- A fenced block containing the program-entry marker (95 characters
once captured; valid). -/
def blockWithMain : String :=
  "import os\ndef strategy_function():\n    pass\nif __name__ == \"__main__\":\n    strategy_function()\n"

/-- A longer fenced block without the program-entry marker (269
characters once stripped; valid through the length floor). -/
def blockNoMain : String :=
  "import sys\ndef helper_one(value):\n    result = value + 1\n    return result\ndef helper_two(value):\n    result = value + 2\n    return result\ndef helper_three(value):\n    result = value + 3\n    return result\ndef helper_four(value):\n    result = value + 4\n    return result\n"

/-- A response text with exactly two fenced code blocks: first the one
with the program-entry marker, then a longer one without it. -/
def twoBlockText : String :=
  "Intro\n```\n" ++ blockWithMain ++ "```\nAnd the longer one:\n```\n" ++
  blockNoMain ++ "```\nend\n"

/-- The same two fenced code blocks in the opposite order: the longer,
marker-free block first, the marker block second. -/
def twoBlockTextRev : String :=
  "Intro\n```\n" ++ blockNoMain ++ "```\nAnd the shorter one:\n```\n" ++
  blockWithMain ++ "```\nend\n"

/-- A candidate block with an unmatched opening parenthesis and none of
the claim's three acceptance disjuncts (it is accepted by the source
through its `class`/`Strategy` path). -/
def unbalancedCandidate : String :=
  "class MyStrategy:\n    def f(self):\n        x = (1"

/-- A fix response from which code extraction succeeds. -/
def goodFixResponse : String :=
  "Here you go:\n```python\ndef strategy_function():\n    import os\n    return 1\n```\ndone"

/-- A fix response from which no code can be extracted. -/
def noCodeResponse : String := "Sorry, I cannot help with that error."

/-- A fix-response oracle: extractable code on the first attempt, then a
response with no code. -/
def mixedResp : Nat → String :=
  fun k => if k == 0 then goodFixResponse else noCodeResponse

/-- An execution oracle on which every run fails. -/
def alwaysFailExec : Nat → Bool × String := fun _ => (false, "boom")

/-- A tokenizer that always succeeds and reports 70000 tokens. -/
def enc70k : String → Option Nat := fun _ => some 70000

/-- A tokenizer that always succeeds and reports 40000 tokens. -/
def enc40k : String → Option Nat := fun _ => some 40000

/-- A tokenizer whose every call raises (size-estimation failure). -/
def encFail : String → Option Nat := fun _ => none

/-- A system message with small content. -/
def sysMsg : Msg := ⟨.system, "sys"⟩

/-- The `i`-th line of the 300-line execution output used for claim C8:
a fault marker at (1-based) line 100, unremarkable text elsewhere. -/
def c8lineStr (i : Nat) : String :=
  if i == 99 then "ZeroDivisionError" else "ok"

/-- A 300-line execution output whose only fault marker sits at
(1-based) line 100. -/
def c8out : String := String.intercalate "\n" ((List.range 300).map c8lineStr)

/-! # Theorems -/

/-! ## Claim C5 — the validity check -/

/-- Claim C5, refuted: `_validate_code` accepts a block with an
unmatched opening parenthesis (the source's bracket scan never checks
that its stack is empty at the end), and the block satisfies none of the
claim's three acceptance disjuncts (no program-entry marker, no
strategy-definition marker, length 49 ≤ 200) — it is accepted through
the source's `class`/`Strategy` path, which the claim omits.  So
`_validate_code` does not accept "only if" the claim's conditions
hold. -/
theorem c5_counterexample :
    validate_code unbalancedCandidate = true ∧
    specValidCheck unbalancedCandidate = false ∧
    specBalancedAux unbalancedCandidate.toList [] = false ∧
    unbalancedCandidate.toList.length ≤ 200 := by
  refine ⟨by decide, by decide, by decide, by decide⟩

/-- Claim C5, amended: `_validate_code` accepts a candidate iff it
contains a structural code keyword, its non-blank lines exhibit at least
one indentation level, every closing bracket matches the most recently
opened one (unmatched opening brackets are NOT rejected), and at least
one of these holds: a program-entry marker, a strategy-definition marker
(`def strategy_function` / `def initialize`), both substrings `class`
and `Strategy`, or length above 200. -/
theorem c5_theorem (code : String) :
    validate_code code = true ↔ amendedValidCheck code = true := by
  unfold validate_code validate_code_l amendedValidCheck
  simp
  tauto

/-! ## Claim C2 — fenced-block selection in `extract_code` -/

/-- Claim C2, refuted: `twoBlockText` contains exactly two fenced code
blocks — the first carries the program-entry marker, the second does not
— yet `extract_code` returns the second (longer) block, because the
fenced-block path of the source picks `max(code_blocks, key=len)` before
any marker is consulted. -/
theorem c2_counterexample :
    findTagBlocks (strL ("```python")) twoBlockText.toList = [] ∧
    findTagBlocks (strL ("```py")) twoBlockText.toList = [] ∧
    findTagBlocks (strL ("```")) twoBlockText.toList =
      [blockWithMain.toList, blockNoMain.toList] ∧
    listSub mainMarkerDq blockWithMain.toList = true ∧
    listSub mainMarkerDq blockNoMain.toList = false ∧
    listSub mainMarkerSq blockNoMain.toList = false ∧
    extract_code twoBlockText = some (String.mk (stripL blockNoMain.toList)) ∧
    String.mk (stripL blockNoMain.toList) ≠ String.mk (stripL blockWithMain.toList) := by
  refine ⟨by decide, by decide, by decide, by decide, by decide, by decide,
    by decide, by decide⟩

/-- Claim C2, amended: when a text contains exactly two plain fenced
blocks (and no `python`/`py`-tagged ones), whichever order they appear
in, `extract_code` returns the LONGER block — the first on a length tie,
exactly Python's `max(code_blocks, key=len)` — whenever its stripped
form passes the validity check.  The program-entry marker plays no role
in fenced-block selection (the marker preference of the source applies
only to the unfenced line-scan fallback). -/
theorem c2_theorem (t : String) (a b : List Char)
    (h1 : findTagBlocks (strL ("```python")) t.toList = [])
    (h2 : findTagBlocks (strL ("```py")) t.toList = [])
    (h3 : findTagBlocks (strL ("```")) t.toList = [a, b])
    (hval : validate_code_l
      (stripL (if a.length < b.length then b else a)) = true) :
    extract_code t =
      some (String.mk (stripL (if a.length < b.length then b else a))) := by
  unfold extract_code extract_code_l
  rw [h1, h2, h3]
  simp only [tryFenced, maxByLenL, List.foldl]
  rw [if_pos hval]
  rfl

/-- Witness for the amended claim C2, exercising BOTH orders of
appearance of the two fenced blocks: in `twoBlockText` the longer block
is second, in `twoBlockTextRev` it is first; either way `extract_code`
returns the longer (marker-free) block. -/
theorem c2_witness :
    findTagBlocks (strL ("```python")) twoBlockText.toList = [] ∧
    findTagBlocks (strL ("```py")) twoBlockText.toList = [] ∧
    findTagBlocks (strL ("```")) twoBlockText.toList =
      [blockWithMain.toList, blockNoMain.toList] ∧
    validate_code_l
      (stripL (if blockWithMain.toList.length < blockNoMain.toList.length
        then blockNoMain.toList else blockWithMain.toList)) = true ∧
    extract_code twoBlockText =
      some (String.mk
        (stripL (if blockWithMain.toList.length < blockNoMain.toList.length
          then blockNoMain.toList else blockWithMain.toList))) ∧
    findTagBlocks (strL ("```")) twoBlockTextRev.toList =
      [blockNoMain.toList, blockWithMain.toList] ∧
    extract_code twoBlockTextRev =
      some (String.mk
        (stripL (if blockNoMain.toList.length < blockWithMain.toList.length
          then blockWithMain.toList else blockNoMain.toList))) :=
  ⟨by decide, by decide, by decide, by decide,
   c2_theorem twoBlockText blockWithMain.toList blockNoMain.toList
     (by decide) (by decide) (by decide) (by decide),
   by decide,
   c2_theorem twoBlockTextRev blockNoMain.toList blockWithMain.toList
     (by decide) (by decide) (by decide) (by decide)⟩

/-! ## Claim C6 — conversation never empty, system message first -/

/-- Trimming a conversation that starts with `sys` yields a conversation
that still starts with `sys`: the early return keeps the list, and the
rebuild path starts from `messages[0]`. -/
theorem trim_head_eq (enc : String → Option Nat) (sys : Msg) (rest : List Msg) :
    ∃ r, trim_conversation_history enc (sys :: rest) = sys :: r := by
  unfold trim_conversation_history trimWithTok
  split
  · exact ⟨rest, rfl⟩
  · exact ⟨_, rfl⟩

/-- `add_message` preserves the head-is-`sys` shape. -/
theorem add_message_head (enc : String → Option Nat) (sys : Msg) (rest : List Msg)
    (role : Role) (content : String) :
    ∃ r, add_message enc role content (sys :: rest) = sys :: r := by
  unfold add_message
  exact trim_head_eq enc sys (rest ++ [⟨role, content⟩])

/-- Folding any sequence of appends over a conversation headed by `sys`
keeps it headed by `sys`. -/
theorem foldl_add_head (enc : String → Option Nat) (sys : Msg) :
    ∀ (ops : List (Role × String)) (rest : List Msg),
      ∃ r, ops.foldl (fun ms rc => add_message enc rc.1 rc.2 ms) (sys :: rest) =
        sys :: r := by
  intro ops
  induction ops with
  | nil => exact fun rest => ⟨rest, rfl⟩
  | cons op ops ih =>
    intro rest
    obtain ⟨r₁, h₁⟩ := add_message_head enc sys rest op.1 op.2
    simpa [List.foldl, h₁] using ih r₁

/-- Claim C6, confirmed: after any sequence of `add_message` calls on a
freshly initialised `GPTClient`, the conversation is non-empty and its
first message has role `system`. -/
theorem c6_theorem (enc : String → Option Nat) (sysPrompt : String)
    (ops : List (Role × String)) :
    applyMessages enc sysPrompt ops ≠ [] ∧
    (applyMessages enc sysPrompt ops).head?.map Msg.role = some .system := by
  obtain ⟨r, hr⟩ := foldl_add_head enc (⟨.system, sysPrompt⟩ : Msg) ops []
  unfold applyMessages initMessages
  rw [hr]
  exact ⟨by simp, rfl⟩

/-! ## Claim C4 — the size bound enforced by `trim_conversation_history` -/

/-- Claim C4, refuted: trimming a conversation whose system message
alone is over budget (here every message is estimated at 70000 tokens
against the 60000 budget) leaves an estimated size above `max_tokens`
AND collapses past the claimed minimum retainable form `[system, last]`
all the way to `[system]` — the rebuild loop of the source starts from
`messages[0]` only and `break`s before keeping any pair. -/
theorem c4_counterexample :
    maxTokens <
      count_messages_tokens enc70k
        (trim_conversation_history enc70k [sysMsg, ⟨.user, "hello"⟩]) ∧
    trim_conversation_history enc70k [sysMsg, ⟨.user, "hello"⟩] ≠
      [sysMsg, ⟨.user, "hello"⟩] ∧
    trim_conversation_history enc70k [sysMsg, ⟨.user, "hello"⟩] = [sysMsg] := by
  refine ⟨by decide, by decide, by decide⟩

/-- If the keep loop of the trim rebuild kept anything, the running
total it maintained — starting tokens plus the content tokens of
everything kept — is within `max_tokens`. -/
theorem keepLoop_le (tok : String → Nat) :
    ∀ (ps : List (List Msg)) (cur : Nat), keepLoop tok ps cur ≠ [] →
      cur + contentTokens tok (keepLoop tok ps cur) ≤ maxTokens := by
  intro ps
  induction ps with
  | nil => intro cur h; exact absurd rfl h
  | cons p ps ih =>
    intro cur h
    rw [keepLoop] at h ⊢
    by_cases hc : maxTokens < cur + pairTokens tok p
    · rw [if_pos hc] at h
      exact absurd rfl h
    · rw [if_neg hc] at h ⊢
      rw [Nat.not_lt] at hc
      by_cases hk : keepLoop tok ps (cur + pairTokens tok p) = []
      · rw [hk]
        simpa [contentTokens, pairTokens] using hc
      · have hrec := ih (cur + pairTokens tok p) hk
        rw [contentTokens, List.map_append, List.sum_append]
        rw [contentTokens] at hrec
        have hpt : ((p.map fun m => tok m.content).sum : Nat) = pairTokens tok p := rfl
        omega

/-- Content tokens are bounded by the overhead-inclusive estimate. -/
theorem contentTokens_le_estimate (tok : String → Nat) (msgs : List Msg) :
    contentTokens tok msgs ≤ (msgs.map (fun m => tok m.content + 10)).sum := by
  unfold contentTokens
  exact List.sum_le_sum (fun m _ => Nat.le_add_right _ _)

/-- Claim C4, amended: after every trim invocation on a conversation
headed by the system message, either the sum of per-message CONTENT
token estimates is within `max_tokens`, or the conversation has been
reduced to the system message ALONE (`[system]`, not `[system, last]`).
The overhead-inclusive `count_messages_tokens` estimate may exceed
`max_tokens` even after trimming, and the last message itself can be
discarded, as `c4_counterexample` shows. -/
theorem c4_theorem (enc : String → Option Nat) (sys : Msg) (rest : List Msg) :
    contentTokens (count_tokens enc)
        (trim_conversation_history enc (sys :: rest)) ≤ maxTokens ∨
    trim_conversation_history enc (sys :: rest) = [sys] := by
  unfold trim_conversation_history trimWithTok
  split
  · rename_i hle
    exact Or.inl (Nat.le_trans (contentTokens_le_estimate _ _) hle)
  · dsimp only
    by_cases hk : keepLoop (count_tokens enc)
        ((((pairUp rest).drop ((pairUp rest).length - maxHistoryMessages)).reverse))
        (count_tokens enc sys.content) = []
    · rw [hk]
      exact Or.inr rfl
    · left
      have := keepLoop_le (count_tokens enc) _ _ hk
      rw [contentTokens, List.map_cons, List.sum_cons]
      rw [contentTokens] at this
      omega

/-! ## Claim C9 — behaviour under size-estimation failure -/

/-- Claim C9, refuted: with a tokenizer whose every call raises
(`encFail`), trimming a three-message conversation leaves it completely
unchanged — the error is swallowed inside `count_tokens` (the fallback
estimate `len(text) // 4` is tiny here), and the conversation is NOT
collapsed to `[system, last]`. -/
theorem c9_counterexample :
    trim_conversation_history encFail
        [sysMsg, ⟨.user, "hello"⟩, ⟨.assistant, "world"⟩] =
      [sysMsg, ⟨.user, "hello"⟩, ⟨.assistant, "world"⟩] ∧
    ([sysMsg, ⟨.user, "hello"⟩, ⟨.assistant, "world"⟩] : List Msg) ≠
      [sysMsg, ⟨.assistant, "world"⟩] := by
  refine ⟨by decide, by decide⟩

/-- Claim C9, amended: when every size estimation raises, the store
swallows the error inside `count_tokens` and substitutes the
`len(text) // 4` character estimate; trimming then proceeds exactly as
it would with that estimate — there is no special collapse to
`[system, last]`. -/
theorem c9_theorem (msgs : List Msg) :
    trim_conversation_history encFail msgs =
      trimWithTok (fun s => s.length / 4) msgs := by
  have h : count_tokens encFail = fun s => s.length / 4 :=
    funext (fun _ => rfl)
  rw [trim_conversation_history, h]

/-! ## Claim C10 — appending an oversized message discards it -/

/-- The pairing loop always places the final message inside the final
pair: `pairUp (l ++ [m])` ends with a pair containing `m`. -/
theorem pairUp_concat (l : List Msg) (m : Msg) :
    ∃ ps p, pairUp (l ++ [m]) = ps ++ [p] ∧ m ∈ p := by
  generalize hn : l.length = n
  induction n using Nat.strong_induction_on generalizing l with
  | _ n ih =>
    match l with
    | [] => exact ⟨[], [m], rfl, by simp⟩
    | [a] =>
      rw [List.cons_append, List.nil_append, pairUp]
      split
      · exact ⟨[], [a, m], rfl, by simp⟩
      · exact ⟨[[a]], [m], rfl, by simp⟩
    | a :: b :: t =>
      rw [List.cons_append, List.cons_append, pairUp]
      split
      · obtain ⟨ps, p, hps, hm⟩ := ih t.length
          (by simp only [List.length_cons] at hn; omega) t rfl
        exact ⟨[a, b] :: ps, p, by rw [hps]; simp, hm⟩
      · obtain ⟨ps, p, hps, hm⟩ := ih (b :: t).length
          (by simp only [List.length_cons] at hn ⊢; omega) (b :: t) rfl
        rw [List.cons_append] at hps
        exact ⟨[a] :: ps, p, by rw [hps]; simp, hm⟩

/-- A member's tokens are bounded by the pair total. -/
theorem le_pairTokens (tok : String → Nat) (p : List Msg) (m : Msg) (hm : m ∈ p) :
    tok m.content ≤ pairTokens tok p := by
  unfold pairTokens
  exact List.single_le_sum (fun _ _ => Nat.zero_le _) _
    (List.mem_map_of_mem (fun x => tok x.content) hm)

/-- Claim C10, confirmed: if the content-token estimates of the system
message and of a newly appended message already exceed `max_tokens` by
themselves, then after `add_message` the conversation is the system
message only — the new message is itself silently discarded.  The
rebuild loop starts from the system message, considers the newest pair
first (which contains the new message), finds it over budget, and
`break`s keeping nothing. -/
theorem c10_theorem (enc : String → Option Nat) (sys m : Msg) (rest : List Msg)
    (h : maxTokens < count_tokens enc sys.content + count_tokens enc m.content) :
    add_message enc m.role m.content (sys :: rest) = [sys] := by
  unfold add_message trim_conversation_history trimWithTok
  have hm : (⟨m.role, m.content⟩ : Msg) = m := rfl
  rw [List.cons_append, hm]
  have htot : ¬ ((List.map (fun x => count_tokens enc x.content + 10)
      (sys :: (rest ++ [m]))).sum ≤ maxTokens) := by
    rw [Nat.not_le, List.map_cons, List.sum_cons, List.map_append,
      List.sum_append, List.map_cons, List.sum_cons]
    simp only [List.map_nil, List.sum_nil]
    omega
  rw [if_neg htot]
  dsimp only
  obtain ⟨ps, p, hps, hmp⟩ := pairUp_concat rest m
  rw [hps]
  have hlast : ((ps ++ [p]).drop ((ps ++ [p]).length - maxHistoryMessages)).reverse =
      p :: (ps.drop (ps.length + 1 - maxHistoryMessages)).reverse := by
    rw [List.drop_append_eq_append_drop]
    have h10 : (ps ++ [p]).length - maxHistoryMessages ≤ ps.length := by
      simp only [List.length_append, List.length_cons, List.length_nil,
        maxHistoryMessages]
      omega
    have : ((ps ++ [p]).length - maxHistoryMessages) - ps.length = 0 :=
      Nat.sub_eq_zero_of_le h10
    rw [this, List.drop_zero, List.reverse_append, List.reverse_cons,
      List.reverse_nil, List.nil_append, List.length_append, List.length_cons,
      List.length_nil]
    rfl
  rw [hlast, keepLoop]
  have hover : maxTokens < count_tokens enc sys.content +
      pairTokens (count_tokens enc) p :=
    Nat.lt_of_lt_of_le h
      (Nat.add_le_add_left (le_pairTokens (count_tokens enc) p m hmp) _)
  rw [if_pos hover]

/-- Witness for claim C10: two 40000-token messages against the 60000
budget; the freshly appended user message is dropped. -/
theorem c10_witness :
    maxTokens < count_tokens enc40k sysMsg.content + count_tokens enc40k "hi" ∧
    add_message enc40k .user "hi" [sysMsg] = [sysMsg] :=
  ⟨by decide, c10_theorem enc40k sysMsg ⟨.user, "hi"⟩ [] (by decide)⟩

/-! ## Claims C1 / C7 — the bounded repair loop -/

/-- One-step unfolding of the loop body (stated once so rewriting
unfolds exactly one iteration). -/
theorem runLoopAux_succ (exec : Nat → Bool × String) (resp : Nat → String)
    (extract : String → Option String) (maxIter fuel count fixes runs : Nat) :
    runLoopAux exec resp extract maxIter (fuel + 1) count fixes runs =
      if (exec runs).1 then
        ⟨.succeeded, (exec runs).2, count, fixes, runs + 1⟩
      else if maxIter ≤ count + 1 then
        ⟨.exhausted, exhaustedMsg ++ (exec runs).2, count + 1, fixes, runs + 1⟩
      else
        match extract (resp fixes) with
        | some _ =>
          runLoopAux exec resp extract maxIter fuel (count + 1) (fixes + 1) (runs + 1)
        | none =>
          ⟨.unrepairable,
           unrepairableMsg1 ++ (exec runs).2 ++ unrepairableMsg2 ++ resp fixes,
           count + 1, fixes + 1, runs + 1⟩ := rfl

/-- With every execution failing and every fix response extractable, the
loop runs the full budget: entered with `fuel + 1 = maxIter - count`
iterations of headroom, it ends `EXHAUSTED` after `fuel + 1` runs and
`fuel` repair prompts. -/
theorem runLoopAux_allfail (exec : Nat → Bool × String) (resp : Nat → String)
    (extract : String → Option String) (maxIter : Nat)
    (hx : ∀ k, (exec k).1 = false) (hf : ∀ k, (extract (resp k)).isSome) :
    ∀ (f count fixes runs : Nat), (f + 1) + count = maxIter →
      runLoopAux exec resp extract maxIter (f + 1) count fixes runs =
        ⟨.exhausted, exhaustedMsg ++ (exec (runs + f)).2, maxIter,
         fixes + f, runs + f + 1⟩ := by
  intro f
  induction f with
  | zero =>
    intro count fixes runs hsum
    rw [runLoopAux_succ, hx runs, if_neg Bool.false_ne_true,
      if_pos (by omega : maxIter ≤ count + 1)]
    have hc : count + 1 = maxIter := by omega
    rw [hc]
    simp only [Nat.add_zero]
  | succ f ihf =>
    intro count fixes runs hsum
    rw [runLoopAux_succ, hx runs, if_neg Bool.false_ne_true,
      if_neg (by omega : ¬ maxIter ≤ count + 1)]
    obtain ⟨c, hc⟩ := Option.isSome_iff_exists.mp (hf fixes)
    rw [hc]
    have hrec := ihf (count + 1) (fixes + 1) (runs + 1) (by omega)
    dsimp only
    rw [hrec]
    have e1 : runs + 1 + f = runs + (f + 1) := by omega
    have e2 : fixes + 1 + f = fixes + (f + 1) := by omega
    rw [e1, e2]

/-- Claim C1, refuted at the concrete always-failing strategy and an
always-extractable fix response: the loop terminates `EXHAUSTED`, but
after `MAX_ITERATIONS - 1 = 4` repair prompts, not `MAX_ITERATIONS = 5`:
when the fifth failure reaches the budget the loop returns immediately,
without sending a fifth repair prompt. -/
theorem c1_counterexample :
    (run_backtest_and_report alwaysFailExec (fun _ => goodFixResponse)
        extract_code).outcome = .exhausted ∧
    (run_backtest_and_report alwaysFailExec (fun _ => goodFixResponse)
        extract_code).fixes = 4 ∧
    (run_backtest_and_report alwaysFailExec (fun _ => goodFixResponse)
        extract_code).fixes ≠ MAX_ITERATIONS := by
  refine ⟨by decide, by decide, by decide⟩

/-- Claim C1, amended: for every always-failing execution and every fix
response that always yields extractable code, the repair loop terminates
`EXHAUSTED` after exactly `MAX_ITERATIONS` failed executions, exactly
`MAX_ITERATIONS` iteration-counter increments, and exactly
`MAX_ITERATIONS - 1` fix attempts (repair prompts sent): the failure
that reaches the budget returns at once, before any further repair
prompt. -/
theorem c1_theorem (exec : Nat → Bool × String) (resp : Nat → String)
    (extract : String → Option String)
    (hx : ∀ k, (exec k).1 = false) (hf : ∀ k, (extract (resp k)).isSome) :
    (run_backtest_and_report exec resp extract).outcome = .exhausted ∧
    (run_backtest_and_report exec resp extract).runs = MAX_ITERATIONS ∧
    (run_backtest_and_report exec resp extract).iters = MAX_ITERATIONS ∧
    (run_backtest_and_report exec resp extract).fixes = MAX_ITERATIONS - 1 := by
  have h := runLoopAux_allfail exec resp extract MAX_ITERATIONS hx hf
    (MAX_ITERATIONS - 1) 0 0 0 (by decide)
  unfold run_backtest_and_report
  have e : MAX_ITERATIONS - 1 + 1 = MAX_ITERATIONS := by decide
  rw [e] at h
  rw [h]
  exact ⟨rfl, rfl, rfl, rfl⟩

/-- Witness for the amended claim C1: the concrete always-failing
execution with a constant extractable fix response. -/
theorem c1_witness :
    (∀ k, (alwaysFailExec k).1 = false) ∧
    (∀ k : Nat, (extract_code ((fun _ : Nat => goodFixResponse) k)).isSome) ∧
    (run_backtest_and_report alwaysFailExec (fun _ => goodFixResponse)
        extract_code).outcome = .exhausted ∧
    (run_backtest_and_report alwaysFailExec (fun _ => goodFixResponse)
        extract_code).runs = MAX_ITERATIONS ∧
    (run_backtest_and_report alwaysFailExec (fun _ => goodFixResponse)
        extract_code).iters = MAX_ITERATIONS ∧
    (run_backtest_and_report alwaysFailExec (fun _ => goodFixResponse)
        extract_code).fixes = MAX_ITERATIONS - 1 := by
  have hx : ∀ k : Nat, (alwaysFailExec k).1 = false := fun _ => rfl
  have hf : ∀ k : Nat, (extract_code ((fun _ : Nat => goodFixResponse) k)).isSome := by
    intro k
    show (extract_code goodFixResponse).isSome = true
    decide
  have h := c1_theorem alwaysFailExec (fun _ => goodFixResponse) extract_code hx hf
  exact ⟨hx, hf, h.1, h.2.1, h.2.2.1, h.2.2.2⟩

/-- If the loop fails `k0 + 1` times and the `k0`-th fix response (the
first without extractable code) arrives strictly inside the budget, the
loop returns `UNREPAIRABLE` at once: `k0 + 1` iterations, `k0 + 1`
repair prompts, `k0 + 1` runs, and a message embedding the fix response
verbatim. -/
theorem runLoopAux_unrep (exec : Nat → Bool × String) (resp : Nat → String)
    (extract : String → Option String) (maxIter : Nat) :
    ∀ (k0 fuel count fixes runs : Nat),
      (∀ k, k ≤ k0 → (exec (runs + k)).1 = false) →
      (∀ k, k < k0 → (extract (resp (fixes + k))).isSome) →
      extract (resp (fixes + k0)) = none →
      fuel + count = maxIter →
      count + k0 + 1 < maxIter →
      runLoopAux exec resp extract maxIter fuel count fixes runs =
        ⟨.unrepairable,
         unrepairableMsg1 ++ (exec (runs + k0)).2 ++ unrepairableMsg2 ++
           resp (fixes + k0),
         count + k0 + 1, fixes + k0 + 1, runs + k0 + 1⟩ := by
  intro k0
  induction k0 with
  | zero =>
    intro fuel count fixes runs hx hf hnone hsum hlt
    cases fuel with
    | zero => omega
    | succ f =>
      have hx0 : (exec runs).1 = false := by simpa using hx 0 (Nat.le_refl 0)
      have hnone' : extract (resp fixes) = none := by simpa using hnone
      rw [runLoopAux_succ, hx0, if_neg Bool.false_ne_true,
        if_neg (by omega : ¬ maxIter ≤ count + 1), hnone']
      dsimp only
      simp only [Nat.add_zero]
  | succ k0 ih =>
    intro fuel count fixes runs hx hf hnone hsum hlt
    cases fuel with
    | zero => omega
    | succ f =>
      have hx0 : (exec runs).1 = false := by simpa using hx 0 (Nat.zero_le _)
      have hf0 : (extract (resp fixes)).isSome := by
        simpa using hf 0 (Nat.succ_pos k0)
      obtain ⟨c, hc⟩ := Option.isSome_iff_exists.mp hf0
      rw [runLoopAux_succ, hx0, if_neg Bool.false_ne_true,
        if_neg (by omega : ¬ maxIter ≤ count + 1), hc]
      dsimp only
      have hrec := ih f (count + 1) (fixes + 1) (runs + 1)
        (fun k hk => by
          have h := hx (k + 1) (Nat.succ_le_succ hk)
          have e : runs + (k + 1) = runs + 1 + k := by omega
          rwa [e] at h)
        (fun k hk => by
          have h := hf (k + 1) (Nat.succ_lt_succ hk)
          have e : fixes + (k + 1) = fixes + 1 + k := by omega
          rwa [e] at h)
        (by
          have e : fixes + (k0 + 1) = fixes + 1 + k0 := by omega
          rwa [e] at hnone)
        (by omega) (by omega)
      rw [hrec]
      have e1 : runs + 1 + k0 = runs + (k0 + 1) := by omega
      have e2 : fixes + 1 + k0 = fixes + (k0 + 1) := by omega
      have e3 : count + 1 + k0 = count + (k0 + 1) := by omega
      rw [e1, e2, e3]

/-- Claim C7, confirmed: when the `k0`-th fix response is the first with
no extractable code (inside the budget, every earlier run having
failed), the loop terminates immediately in `UNREPAIRABLE` — the
iteration counter stops at `k0 + 1` (only the failures already
consumed), no further runs happen, and the returned message embeds the
fix-attempt response verbatim after the `GPT响应：` header. -/
theorem c7_theorem (exec : Nat → Bool × String) (resp : Nat → String)
    (extract : String → Option String) (k0 : Nat)
    (hx : ∀ k, k ≤ k0 → (exec k).1 = false)
    (hf : ∀ k, k < k0 → (extract (resp k)).isSome)
    (hnone : extract (resp k0) = none)
    (hbud : k0 + 1 < MAX_ITERATIONS) :
    run_backtest_and_report exec resp extract =
      ⟨.unrepairable,
       unrepairableMsg1 ++ (exec k0).2 ++ unrepairableMsg2 ++ resp k0,
       k0 + 1, k0 + 1, k0 + 1⟩ := by
  have h := runLoopAux_unrep exec resp extract MAX_ITERATIONS k0
    MAX_ITERATIONS 0 0 0
    (fun k hk => by simpa using hx k hk)
    (fun k hk => by simpa using hf k hk)
    (by simpa using hnone)
    rfl (by omega)
  unfold run_backtest_and_report
  rw [h]
  simp only [Nat.zero_add]

/-- Witness for claim C7: one failed run with a repairing response, a
second failed run whose fix response has no code; the loop stops right
there with the response embedded verbatim. -/
theorem c7_witness :
    (∀ k, k ≤ 1 → (alwaysFailExec k).1 = false) ∧
    (∀ k, k < 1 → (extract_code (mixedResp k)).isSome) ∧
    extract_code (mixedResp 1) = none ∧
    1 + 1 < MAX_ITERATIONS ∧
    run_backtest_and_report alwaysFailExec mixedResp extract_code =
      ⟨.unrepairable,
       unrepairableMsg1 ++ (alwaysFailExec 1).2 ++ unrepairableMsg2 ++
         mixedResp 1,
       2, 2, 2⟩ := by
  have hx : ∀ k, k ≤ 1 → (alwaysFailExec k).1 = false := fun _ _ => rfl
  have hf : ∀ k, k < 1 → (extract_code (mixedResp k)).isSome := by
    intro k hk
    have hk0 : k = 0 := by omega
    subst hk0
    decide
  have hnone : extract_code (mixedResp 1) = none := by decide
  have h := c7_theorem alwaysFailExec mixedResp extract_code 1 hx hf hnone
    (by decide)
  exact ⟨hx, hf, hnone, by decide, by rw [h]⟩

/-! ## Claim C3 — termination of the generate→run→fix cycle -/

/-- The workflow loop performs at most `fuel` further runs and counter
increments, for every oracle. -/
theorem runLoopAux_bounded (exec : Nat → Bool × String) (resp : Nat → String)
    (extract : String → Option String) (maxIter : Nat) :
    ∀ (fuel count fixes runs : Nat),
      (runLoopAux exec resp extract maxIter fuel count fixes runs).runs ≤
        runs + fuel ∧
      (runLoopAux exec resp extract maxIter fuel count fixes runs).iters ≤
        count + fuel := by
  intro fuel
  induction fuel with
  | zero => intro count fixes runs; exact ⟨Nat.le_refl _, Nat.le_refl _⟩
  | succ f ih =>
    intro count fixes runs
    rw [runLoopAux_succ]
    split
    · exact ⟨by simp, by simp⟩
    · split
      · exact ⟨by simp, by simp⟩
      · split
        · have := ih (count + 1) (fixes + 1) (runs + 1)
          exact ⟨by omega, by omega⟩
        · exact ⟨by simp, by simp⟩

/-- With every run failing and every fix succeeding, the recursive
`run_backtest` never returns, no matter how much fuel it is given. -/
theorem runBacktestFuel_none :
    ∀ (fuel k : Nat),
      runBacktestFuel (fun _ => false) (fun _ => true) fuel k = none := by
  intro fuel
  induction fuel with
  | zero => intro k; rfl
  | succ f ih => intro k; simpa [runBacktestFuel] using ih (k + 1)

/-- Claim C3, refuted: `IntegrationManager.run_backtest` re-invokes
itself after every successful fix with NO iteration counter, so with an
always-failing execution and an always-successful fix the invocation
chain never reaches a return value — termination is not guaranteed for
every sequence of service responses and execution outcomes. -/
theorem c3_counterexample :
    ¬ ∃ fuel,
        (runBacktestFuel (fun _ => false) (fun _ => true) fuel 0).isSome := by
  rintro ⟨fuel, h⟩
  rw [runBacktestFuel_none fuel 0] at h
  simp at h

/-- Claim C3, amended: termination is guaranteed for
`WorkflowManager._run_backtest_and_report` — its iteration counter is
bounded by `MAX_ITERATIONS`, so runs and counter stay within the budget
for EVERY oracle — but NOT for `IntegrationManager.run_backtest`, whose
uncounted recursive re-invocation runs forever (until the interpreter's
recursion limit) when every execution fails and every fix succeeds. -/
theorem c3_theorem :
    (∀ (exec : Nat → Bool × String) (resp : Nat → String)
        (extract : String → Option String),
      (run_backtest_and_report exec resp extract).runs ≤ MAX_ITERATIONS ∧
      (run_backtest_and_report exec resp extract).iters ≤ MAX_ITERATIONS) ∧
    (∀ fuel k,
      runBacktestFuel (fun _ => false) (fun _ => true) fuel k = none) := by
  constructor
  · intro exec resp extract
    have h := runLoopAux_bounded exec resp extract MAX_ITERATIONS
      MAX_ITERATIONS 0 0 0
    unfold run_backtest_and_report
    constructor
    · exact Nat.le_trans h.1 (by omega)
    · exact Nat.le_trans h.2 (by omega)
  · exact runBacktestFuel_none

/-! ## Claim C8 — the error-context window -/

/-- Claim C8, confirmed: when the split output has 300 lines and the
first hard fault marker sits at index 99 (1-based line 100), the
extracted error context is exactly lines 49..148 (1-based 50..149): a
window of 50 lines before and 50 after the marker line, which includes
the lines around line 100 and excludes all of (1-based) lines 1–40 and
150–300 — in particular 260–300. -/
theorem c8_theorem (out : String)
    (hlen : (splitLinesL out.toList).length = 300)
    (hidx : (splitLinesL out.toList).findIdx? errorMarkerLine = some 99) :
    extractErrorInfo out =
      String.mk (joinLinesL (((splitLinesL out.toList).drop 49).take 100)) := by
  unfold extractErrorInfo extractErrorInfoL
  rw [hidx]
  dsimp only
  rw [hlen]
  norm_num [sliceL]

set_option maxHeartbeats 4000000 in
/-- Witness for claim C8: the concrete 300-line output with its only
fault marker at line 100. -/
theorem c8_witness :
    (splitLinesL c8out.toList).length = 300 ∧
    (splitLinesL c8out.toList).findIdx? errorMarkerLine = some 99 ∧
    extractErrorInfo c8out =
      String.mk (joinLinesL (((splitLinesL c8out.toList).drop 49).take 100)) := by
  have h1 : (splitLinesL c8out.toList).length = 300 := by decide
  have h2 : (splitLinesL c8out.toList).findIdx? errorMarkerLine = some 99 := by
    decide
  exact ⟨h1, h2, c8_theorem c8out h1 h2⟩

end SSQuant
